import Mathlib

/-!
# Verification of the ETSI use-case multi-agent design workflow

Shallow embedding of the orchestration core of the repository:

* `src/src/agents/state.py`     — the `AgentState` record threaded through steps
* `src/src/agents/query_agent.py`    — Classifier step and the embedding resolver
* `src/src/agents/design_agent_react.py` — Designer step
* `src/src/agents/feedback_agent.py` — Critic step (verdict parsing, lessons)
* `src/src/agents/memory.py`    — long-term lesson store
* `src/src/agents/graph.py`     — LangGraph controller (routing, loop)

LLM calls, embeddings and vector-store retrievals are external collaborators;
they enter the model as oracle parameters (per-invocation outcome records).
Python strings are modelled as Lean `String`, Python `int` as `Int`,
`None`-able fields as `Option`.
-/

/-! ## Python-style string primitives -/

/-- Python truthiness of a string: non-empty. -/
def truthyStr (s : String) : Bool := !s.data.isEmpty

/-- Python truthiness of an optional string: not `None` and non-empty. -/
def truthy : Option String → Bool
  | none => false
  | some s => truthyStr s

/-- Characters treated as whitespace by Python's `str.strip()`. -/
def pyWhitespace : List Char := [' ', '\t', '\n', '\r', '\x0b', '\x0c']

/-- `str.strip()` on the character list. -/
def pyStripL (l : List Char) : List Char :=
  ((l.dropWhile (· ∈ pyWhitespace)).reverse.dropWhile (· ∈ pyWhitespace)).reverse

/-- Character-wise uppercasing, modelling `str.upper()`. -/
def upperL (l : List Char) : List Char := l.map Char.toUpper

/-- Substring containment (`needle in hay` on Python strings). -/
def containsSub (hay needle : List Char) : Bool :=
  needle.isPrefixOf hay ||
    match hay with
    | [] => false
    | _ :: t => containsSub t needle

/-- `"\n".split` behaviour: split a character list at newline characters. -/
def splitLines : List Char → List (List Char)
  | [] => [[]]
  | c :: t =>
    match splitLines t with
    | [] => [[]]
    | l :: ls => if c = '\n' then [] :: l :: ls else (c :: l) :: ls

/-- `"\n\n".join` over retrieved chunk contents. -/
def joinBlankLine (chunks : List String) : String :=
  String.intercalate "\n\n" chunks

/-! ## Critic verdict parsing (`feedback_agent.py`, line 178) -/

/-- `is_approved = "APPROVED" in evaluation.upper() and "NEEDS_REVISION" not in
evaluation.upper()`. -/
def parse_verdict (evaluation : String) : Bool :=
  containsSub (upperL evaluation.data) "APPROVED".data &&
    !containsSub (upperL evaluation.data) "NEEDS_REVISION".data

/-- Case-insensitive substring occurrence: some infix of `s` uppercases to the
token. This is the spec's phrasing of "case-insensitive substring check". -/
def CIContains (s tok : String) : Prop :=
  ∃ m : List Char, m <:+: s.data ∧ upperL m = tok.data

/-! ## Lesson extraction cleanup (`feedback_agent.py`, lines 194–199) -/

/-- The `lstrip` character set `"0123456789.-) "`. -/
def markerChars : List Char :=
  ['0', '1', '2', '3', '4', '5', '6', '7', '8', '9', '.', '-', ')', ' ']

/-- `lesson.lstrip("0123456789.-) ").strip()` applied to one line. -/
def cleanLessonLine (l : List Char) : List Char :=
  pyStripL (l.dropWhile (· ∈ markerChars))

/-- The full lesson post-processing of the Critic's finalization:
`[l.strip() for l in lessons_text.strip().split("\n") if l.strip()]`,
then per line `lstrip("0123456789.-) ").strip()`, keeping non-empty results.
The returned list holds one entry per `memory.add_lesson` call, in order. -/
def extractLessons (lessonsText : String) : List String :=
  let lines := splitLines (pyStripL lessonsText.data)
  let stripped := (lines.map pyStripL).filter (fun l => !l.isEmpty)
  ((stripped.map cleanLessonLine).filter (fun l => !l.isEmpty)).map (fun l => ⟨l⟩)

/-! ## Workflow state (`state.py` `AgentState`, `graph.py` initial state) -/

/-- The `AgentState` TypedDict threaded through all steps. -/
structure AgentState where
  user_query : String
  use_case_id : Option String
  use_case_name : Option String
  description_summary : Option String
  requirement_list : Option String
  system_design : Option String
  research_search : Option String
  feedback : Option String
  is_approved : Bool
  iteration : Int
  max_iterations : Int
  final_response : Option String
  error : Option String
deriving DecidableEq, Repr

/-- The initial state built by `run_design_workflow` (`graph.py`, lines 185–199). -/
def initialState (userQuery : String) (maxIter : Int) : AgentState :=
  { user_query := userQuery
    use_case_id := none
    use_case_name := none
    description_summary := none
    requirement_list := none
    system_design := none
    research_search := none
    feedback := none
    is_approved := false
    iteration := 0
    max_iterations := maxIter
    final_response := none
    error := none }

/-! ## Classifier step (`query_agent.py`) -/

/-- The closed use-case catalog (`QueryAnalysisAgent.use_case_names`),
in insertion order. -/
def useCaseCatalog : List (String × String) :=
  [("5.1.1", "AI Agents to Enable Smart Life"),
   ("5.1.2", "Network-Assisted Collaborative Robots"),
   ("5.1.3", "AI Phone"),
   ("5.2.1", "AI Agent-based Customized Network for Smart City Traffic Monitoring"),
   ("5.2.2", "AI Agents-Based Customized Network for Smart Construction Sites"),
   ("5.2.3", "AI Agent Ensuring Game Acceleration Experience"),
   ("5.2.4", "AI Agent-Assisted Collaborative Energy Distribution in Power Enterprises"),
   ("5.3.1", "AI Agent-Based Autonomous Network Management"),
   ("5.3.2", "AI Agent-Based Disaster Handling Network Management"),
   ("5.3.3", "AI Agent-Based Time-Sensitive Network Management"),
   ("5.3.4", "AI Agent-Driven Core Network Signalling Optimization"),
   ("5.3.5", "AI Agent-Based Core Networks to Enhance User Experience")]

/-- `use_case_id in self.use_case_names` / `self.use_case_names[id]`. -/
def lookupName (id : String) : Option String :=
  (useCaseCatalog.find? (fun p => p.1 = id)).map (fun p => p.2)

/-- Outcome of the external calls made inside the Classifier's `try` block:
the resolver result, the two retrieval results (chunk contents), the
summarization output, or an exception message. -/
structure QueryOutcome where
  exc : Option String
  resolvedId : Option String
  descriptionChunks : List String
  requirementChunks : List String
  summary : String
deriving DecidableEq, Repr

/-- `QueryAnalysisAgent.run` (`query_agent.py`, lines 130–240). -/
def queryAgentRun (o : QueryOutcome) (s : AgentState) : AgentState :=
  match o.exc with
  | some m =>
    { s with error := some ("Query analysis failed: " ++ m),
             use_case_id := none, use_case_name := none,
             description_summary := none, requirement_list := none }
  | none =>
    match o.resolvedId with
    | none =>
      { s with error := some "Could not identify a valid use case from query. Got: None",
               use_case_id := none, use_case_name := none,
               description_summary := none }
    | some id =>
      match lookupName id with
      | none =>
        { s with error := some ("Could not identify a valid use case from query. Got: " ++ id),
                 use_case_id := none, use_case_name := none,
                 description_summary := none }
      | some name =>
        if o.descriptionChunks.isEmpty then
          { s with error := some ("No description found for use case " ++ id),
                   use_case_id := some id, use_case_name := some name,
                   description_summary := none }
        else if o.requirementChunks.isEmpty then
          { s with error := some ("No requirement found for use case " ++ id),
                   use_case_id := some id, use_case_name := some name,
                   description_summary := none }
        else
          { s with use_case_id := some id, use_case_name := some name,
                   description_summary := some o.summary,
                   requirement_list := some (joinBlankLine o.requirementChunks),
                   error := none }

/-- The `query_node` wrapper in `create_workflow` overwrites `max_iterations`
with the configured value after the agent runs (`graph.py`, lines 83–87). -/
def queryNode (cfg : Int) (o : QueryOutcome) (s : AgentState) : AgentState :=
  { queryAgentRun o s with max_iterations := cfg }

/-! ## Designer step (`design_agent_react.py`) -/

/-- Outcome of the ReAct generation call: an exception message, or the
extracted final design text together with the research tool calls made and
the concatenated research summaries. -/
structure DesignOutcome where
  exc : Option String
  finalText : String
  researchQueries : List String
  researchSummaries : String
deriving DecidableEq, Repr

/-- The "Research Conducted" provenance block prepended to the design when any
research tool call occurred (`design_agent_react.py`, lines 250–255). -/
def researchHeader (qs : List String) : String :=
  "## Research Conducted\nThe agent researched the following topics:\n" ++
    String.join (qs.map (fun q => "- \"" ++ q ++ "\"\n")) ++ "\n---\n\n"

/-- The design text stored in state: the provenance block (when research
happened) followed by the extracted final text. -/
def designText (o : DesignOutcome) : String :=
  if o.researchQueries.isEmpty then o.finalText
  else researchHeader o.researchQueries ++ o.finalText

/-- `DesignAgentReAct.run` (`design_agent_react.py`, lines 122–272).
Input validation checks only `use_case_id` and `description_summary`
(line 138: `if not use_case_id or not description_summary`). -/
def designRun (o : DesignOutcome) (s : AgentState) : AgentState :=
  if !truthy s.use_case_id || !truthy s.description_summary then
    { s with error := some "Design agent requires use_case_id and description_summary",
             system_design := none }
  else
    match o.exc with
    | some m =>
      { s with error := some ("Design generation failed: " ++ m),
               system_design := none }
    | none =>
      { s with research_search := some o.researchSummaries,
               system_design := some (designText o),
               error := none }

/-! ## Critic step (`feedback_agent.py`) -/

/-- Outcome of the Critic's external calls: an exception from the evaluation
chain, or the evaluation text plus the lesson-extraction output. -/
structure FeedbackOutcome where
  exc : Option String
  evaluation : String
  lessonsText : String
deriving DecidableEq, Repr

/-- `None` rendered by a Python f-string. -/
def optStr : Option String → String
  | none => "None"
  | some s => s

/-- The `final_response` report composed at finalization
(`feedback_agent.py`, lines 201–220). -/
def finalResponseText (s : AgentState) (approved : Bool)
    (evaluation lessonsText : String) : String :=
  (if approved then "✅ Design APPROVED"
   else "⚠️ Design finalized after " ++ toString s.max_iterations ++
        " iterations (max reached)") ++
  "\n\n## Use Case\n" ++ optStr s.use_case_id ++ ": " ++ optStr s.use_case_name ++
  "\n\n## Final System Design\n" ++ optStr s.system_design ++
  "\n\n## Evaluation Summary\n" ++ evaluation ++
  "\n\n## Lessons Learned (saved for future designs)\n" ++ lessonsText ++ "\n"

/-- `FeedbackAgent.run` (`feedback_agent.py`, lines 142–247).  Returns the
updated state together with the list of `memory.add_lesson` writes issued,
in order — one write (and one full persist) per surviving lesson. -/
def feedbackRun (o : FeedbackOutcome) (s : AgentState) : AgentState × List String :=
  if !truthy s.system_design || !truthy s.requirement_list then
    ({ s with error := some "Feedback agent requires system_design and requirement_list",
              is_approved := false }, [])
  else
    match o.exc with
    | some m =>
      ({ s with error := some ("Feedback evaluation failed: " ++ m),
                is_approved := false }, [])
    | none =>
      let approved := parse_verdict o.evaluation
      let isFinal := s.iteration + 1 ≥ s.max_iterations
      if approved || isFinal then
        ({ s with feedback := some o.evaluation,
                  is_approved := true,
                  iteration := s.iteration + 1,
                  final_response :=
                    some (finalResponseText s approved o.evaluation o.lessonsText),
                  error := none }, extractLessons o.lessonsText)
      else
        ({ s with feedback := some o.evaluation,
                  is_approved := false,
                  iteration := s.iteration + 1,
                  final_response := none,
                  error := none }, [])

/-! ## Controller routing (`graph.py`, lines 98–114) -/

/-- `route_after_query` returns `"end"` (versus `"design"`). -/
def routeAfterQueryEnds (s : AgentState) : Bool :=
  truthy s.error || !truthy s.use_case_id

/-- `route_after_feedback` returns `"end"` (versus `"design"`). -/
def routeAfterFeedbackEnds (s : AgentState) : Bool :=
  truthy s.error || s.is_approved || truthy s.final_response

/-! ## Controller execution (`graph.py` `create_workflow` / `run_design_workflow`) -/

/-- The three graph nodes. -/
inductive Node
  | query
  | design
  | feedback
deriving DecidableEq, Repr

/-- Result of driving the compiled graph to completion: terminal state, number
of Critic (feedback-node) invocations, the trace of invoked nodes, and all
Memory Store writes in order. -/
structure RunResult where
  state : AgentState
  criticCount : Nat
  trace : List Node
  writes : List String
deriving DecidableEq, Repr

/-- The Designer/Critic loop: the `design → feedback` edge is unconditional
(`graph.py`, line 136); after `feedback`, `route_after_feedback` decides.
`d`/`f` give the external-call outcomes of the `k`-th round; `fuel` bounds the
number of rounds executed. -/
def loopDF (d : Nat → DesignOutcome) (f : Nat → FeedbackOutcome) :
    Nat → Nat → AgentState → Option RunResult
  | 0, _, _ => none
  | fuel + 1, k, s =>
    let s1 := designRun (d k) s
    let sw := feedbackRun (f k) s1
    if routeAfterFeedbackEnds sw.1 then
      some ⟨sw.1, k + 1, [Node.design, Node.feedback], sw.2⟩
    else
      match loopDF d f fuel (k + 1) sw.1 with
      | none => none
      | some r => some ⟨r.state, r.criticCount,
                        Node.design :: Node.feedback :: r.trace,
                        sw.2 ++ r.writes⟩

/-- One complete workflow run from the `run_design_workflow` initial state:
query node, `route_after_query`, then the bounded Designer/Critic loop. -/
def runWorkflow (cfg : Int) (q : QueryOutcome) (d : Nat → DesignOutcome)
    (f : Nat → FeedbackOutcome) (fuel : Nat) (userQuery : String) :
    Option RunResult :=
  let s1 := queryNode cfg q (initialState userQuery cfg)
  if routeAfterQueryEnds s1 then
    some ⟨s1, 0, [Node.query], []⟩
  else
    match loopDF d f fuel 0 s1 with
    | none => none
    | some r => some ⟨r.state, r.criticCount, Node.query :: r.trace, r.writes⟩

/-! ## Reachability (state-machine view of §4.1) -/

/-- Controller phases. -/
inductive Phase
  | classifying
  | designing
  | critiquing
  | terminated
deriving DecidableEq, Repr

/-- Phase chosen by `route_after_query`. -/
def phaseAfterQuery (s : AgentState) : Phase :=
  if routeAfterQueryEnds s then Phase.terminated else Phase.designing

/-- Phase chosen by `route_after_feedback`. -/
def phaseAfterFeedback (s : AgentState) : Phase :=
  if routeAfterFeedbackEnds s then Phase.terminated else Phase.designing

/-- One controller step, for arbitrary external-call outcomes.  `cfg` is the
`max_iterations` value `create_workflow` was built with. -/
inductive WStep (cfg : Int) : Phase × AgentState → Phase × AgentState → Prop
  | query (s : AgentState) (o : QueryOutcome) :
      WStep cfg (Phase.classifying, s)
        (phaseAfterQuery (queryNode cfg o s), queryNode cfg o s)
  | design (s : AgentState) (o : DesignOutcome) :
      WStep cfg (Phase.designing, s) (Phase.critiquing, designRun o s)
  | feedback (s : AgentState) (o : FeedbackOutcome) :
      WStep cfg (Phase.critiquing, s)
        (phaseAfterFeedback (feedbackRun o s).1, (feedbackRun o s).1)

/-- Configurations reachable by the workflow from the fresh initial state. -/
def Reachable (cfg : Int) (userQuery : String) (c : Phase × AgentState) : Prop :=
  Relation.ReflTransGen (WStep cfg)
    (Phase.classifying, initialState userQuery cfg) c

/-! ## Lesson-extraction claims -/

/-- A state in the Critic's finalization path, used to instantiate theorems. -/
def stFinalize : AgentState :=
  { initialState "q" 3 with
      use_case_id := some "5.1.1"
      use_case_name := some "AI Agents to Enable Smart Life"
      requirement_list := some "req"
      description_summary := some "desc"
      system_design := some "design" }

/-! ## Designer input validation (C6) -/

/-- A state with `use_case_name` missing but `use_case_id` and
`description_summary` present. -/
def stNoName : AgentState :=
  { initialState "q" 3 with
      use_case_id := some "5.1.1"
      description_summary := some "desc"
      requirement_list := some "req" }

/-- Inductive invariant for C5: outside the terminal phase `final_response`
is still null; in the terminal phase a non-null `final_response` implies
approval or an error. -/
def InvFinal : Phase × AgentState → Prop
  | (Phase.terminated, s) => s.final_response ≠ none → s.is_approved = true ∨ s.error ≠ none
  | (_, s) => s.final_response = none

/-! ## Concrete oracle outcomes used to instantiate the theorems -/

/-- A successful classification outcome resolving `"5.1.1"`. -/
def qW : QueryOutcome := ⟨none, some "5.1.1", ["desc"], ["req"], "summary"⟩

/-- Design generation succeeding with a fixed text and no research calls. -/
def dW : Nat → DesignOutcome := fun _ => ⟨none, "DESIGN", [], ""⟩

/-- A Critic whose evaluation always reads `NEEDS_REVISION`. -/
def fW : Nat → FeedbackOutcome := fun _ => ⟨none, "NEEDS_REVISION", "1. lesson"⟩

/-- Design generation raising an exception. -/
def dErrW : Nat → DesignOutcome := fun _ => ⟨some "boom", "", [], ""⟩

/-! ## Iteration counter invariant (C4) -/

/-- Inductive invariant for C4: `max_iterations` equals the configured value
everywhere; before the terminal phase another Critic increment still fits in
the budget. -/
def InvIter (cfg : Int) : Phase × AgentState → Prop
  | (Phase.terminated, s) =>
      s.max_iterations = cfg ∧ 0 ≤ s.iteration ∧ s.iteration ≤ cfg
  | (_, s) => s.max_iterations = cfg ∧ 0 ≤ s.iteration ∧ s.iteration + 1 ≤ cfg

/-- The Critic state used for C4 instantiations: an exception-raising
evaluation call. -/
def fExcC4 : FeedbackOutcome := ⟨some "boom", "E", "L"⟩

/-- Terminal state of a run configured with `max_iterations = 0`. -/
def sBadC4 : AgentState :=
  (feedbackRun (fW 0) (designRun (dW 0) (queryNode 0 qW (initialState "q" 0)))).1

/-- Terminal state of a one-iteration run (the Critic finalizes on budget
exhaustion). -/
def sTermC5 : AgentState :=
  (feedbackRun (fW 0) (designRun (dW 0) (queryNode 1 qW (initialState "q" 1)))).1

/-! ## Embedding-based resolver (`query_agent.py` `identify_use_case_id`, C9) -/

/-- One loop step of `identify_use_case_id`: keep the incumbent unless the
candidate's similarity is strictly greater. -/
def bestStep (acc : Option String × Rat) (p : String × Rat) : Option String × Rat :=
  if p.2 > acc.2 then (some p.1, p.2) else acc

/-- `identify_use_case_id` over the catalog-ordered similarity scores:
`best_id = None`, `best_score = -1.0`, then the strict-improvement loop.
Cosine similarities (floats in the source) are modelled as rationals. -/
def identifyBest (scores : List (String × Rat)) : Option String :=
  (scores.foldl bestStep ((none : Option String), (-1 : Rat))).1

/-- The Classifier running with the resolver inlined (Option 1 of
`QueryAnalysisAgent.run`): `use_case_id = identify_use_case_id(...)`. -/
def classifierRun (scores : List (String × Rat)) (desc req : List String)
    (summary : String) (s : AgentState) : AgentState :=
  queryAgentRun ⟨none, identifyBest scores, desc, req, summary⟩ s

/-- The catalog scored uniformly at exactly `-1`. -/
def scoresAllNeg : List (String × Rat) :=
  useCaseCatalog.map (fun p => (p.1, (-1 : Rat)))

/-- Concrete similarity scores with a tie at the maximum: `"5.2.1"` and
`"5.3.5"` both score `1`; `"5.2.1"` attains it first. -/
def scoresW : List (String × Rat) := [("5.1.1", 0), ("5.2.1", 1), ("5.3.5", 1)]

/-! ## Substring containment facts -/

theorem containsSub_infix_iff (hay needle : List Char) :
    containsSub hay needle = true ↔ needle <:+: hay := by
  induction hay with
  | nil => simp [containsSub, List.isPrefixOf_iff_prefix]
  | cons c t ih =>
    rw [containsSub]
    simp [ List.isPrefixOf_iff_prefix, ih, List.infix_cons_iff]

theorem infix_map_iff {α β : Type} (f : α → β) (l : List α) (t : List β) :
    t <:+: l.map f ↔ ∃ m, m <:+: l ∧ m.map f = t := by
  constructor
  · rintro ⟨s, r, hsr⟩
    rw [List.append_assoc] at hsr
    obtain ⟨l₁, l₂, hl, hm1, hm2⟩ := List.map_eq_append_iff.mp hsr.symm
    obtain ⟨m, l₃, hl2, hmm, hm3⟩ := List.map_eq_append_iff.mp hm2
    exact ⟨m, ⟨l₁, l₃, by rw [hl, hl2, List.append_assoc]⟩, hmm⟩
  · rintro ⟨m, hm, rfl⟩
    exact hm.map f

theorem ciContains_iff (s tok : String) :
    containsSub (upperL s.data) tok.data = true ↔ CIContains s tok := by
  rw [containsSub_infix_iff]
  exact infix_map_iff Char.toUpper s.data tok.data

/-- C1: the run is approved iff the evaluation text contains `APPROVED` and
does not contain `NEEDS_REVISION`, both checks case-insensitive; in particular
a text containing both tokens parses as NOT approved. -/
theorem claim_C1_verdict_parsing (ev : String) :
    (parse_verdict ev = true ↔
      (CIContains ev "APPROVED" ∧ ¬ CIContains ev "NEEDS_REVISION")) ∧
    (CIContains ev "APPROVED" → CIContains ev "NEEDS_REVISION" →
      parse_verdict ev = false) := by
  have happ := ciContains_iff ev "APPROVED"
  have hrev := ciContains_iff ev "NEEDS_REVISION"
  constructor
  · rw [parse_verdict, Bool.and_eq_true, Bool.not_eq_true', ← Bool.not_eq_true]
    rw [happ, hrev]
  · intro h1 h2
    rw [parse_verdict, ← hrev] at *
    simp [h2]

/-- Witness for C1 at a concrete evaluation text containing both tokens. -/
theorem claim_C1_verdict_parsing_witness :
    parse_verdict "approved NEEDS_REVISION" = false :=
  (claim_C1_verdict_parsing "approved NEEDS_REVISION").2
    ⟨"approved".data, ⟨[], " NEEDS_REVISION".data, by decide⟩, by decide⟩
    ⟨"NEEDS_REVISION".data, ⟨"approved ".data, [], by decide⟩, by decide⟩

/-- C7: on finalization the Critic turns the lesson-extraction output into the
write list `extractLessons`: split into non-empty lines, strip leading
enumeration markers, append each surviving line as one Memory Store write;
`"1. Use circuit breakers"` and `"- Cache results"` survive with the marker
stripped, and a blank line between them yields no lesson. -/
theorem claim_C7_lesson_writes :
    (∀ (o : FeedbackOutcome) (s : AgentState),
        truthy s.system_design = true → truthy s.requirement_list = true →
        o.exc = none →
        (parse_verdict o.evaluation = true ∨ s.iteration + 1 ≥ s.max_iterations) →
        (feedbackRun o s).2 = extractLessons o.lessonsText) ∧
    extractLessons "1. Use circuit breakers\n\n- Cache results" =
      ["Use circuit breakers", "Cache results"] := by
  constructor
  · intro o s hd hr hexc hfin
    rw [feedbackRun, hexc]
    simp only [hd, hr, Bool.not_true, Bool.or_self, Bool.false_eq_true, if_false]
    rcases hfin with h | h
    · simp [h]
    · simp [decide_eq_true h]
  · decide

/-- Witness for C7: the finalization writes at a concrete outcome. -/
theorem claim_C7_lesson_writes_witness :
    (feedbackRun ⟨none, "APPROVED", "1. Use circuit breakers\n\n- Cache results"⟩
        stFinalize).2 = ["Use circuit breakers", "Cache results"] := by
  have h := claim_C7_lesson_writes.1
    ⟨none, "APPROVED", "1. Use circuit breakers\n\n- Cache results"⟩ stFinalize
    (by decide) (by decide) rfl (Or.inl (by decide))
  rw [h]
  exact claim_C7_lesson_writes.2

/-- C10: the cleanup strips a leading character set, not a numbering pattern:
a lesson whose content starts with `'3'` loses that character, so
`"3GPP interfaces must be secured"` is stored as
`"GPP interfaces must be secured"`. -/
theorem claim_C10_marker_charset :
    extractLessons "3GPP interfaces must be secured" =
      ["GPP interfaces must be secured"] ∧
    (feedbackRun ⟨none, "APPROVED", "3GPP interfaces must be secured"⟩
        stFinalize).2 = ["GPP interfaces must be secured"] ∧
    "GPP interfaces must be secured" ≠ "3GPP interfaces must be secured" := by
  refine ⟨by decide, ?_, by decide⟩
  decide

/-- Counterexample to C6: with `use_case_name` missing but the other two
fields present, the Designer does not return an immediate error — it proceeds
to generation and stores the design. -/
theorem claim_C6_counterexample :
    stNoName.use_case_name = none ∧
    (designRun ⟨none, "DESIGN", [], ""⟩ stNoName).error = none ∧
    (designRun ⟨none, "DESIGN", [], ""⟩ stNoName).system_design = some "DESIGN" := by
  decide

/-- C6 as amended: the Designer validates only `use_case_id` and
`description_summary`; if either is missing (null or empty) it returns
immediately with `error` set and `system_design` null, independent of the
generation outcome (no generation attempt).  `use_case_name` is not checked. -/
theorem claim_C6_designer_validation (o : DesignOutcome) (s : AgentState)
    (h : truthy s.use_case_id = false ∨ truthy s.description_summary = false) :
    designRun o s =
      { s with error := some "Design agent requires use_case_id and description_summary",
               system_design := none } := by
  rw [designRun]
  rcases h with h | h <;> simp [h]

/-- Witness for C6 (amended): missing `use_case_id` on the fresh state. -/
theorem claim_C6_designer_validation_witness :
    designRun ⟨none, "DESIGN", [], ""⟩ (initialState "q" 3) =
      { initialState "q" 3 with
          error := some "Design agent requires use_case_id and description_summary",
          system_design := none } :=
  claim_C6_designer_validation ⟨none, "DESIGN", [], ""⟩ (initialState "q" 3)
    (Or.inl (by decide))

/-! ## Classifier error discrimination (C8) -/

/-- C8: for a resolved id, an empty description or requirement retrieval
yields `error` set with `use_case_id`/`use_case_name` still populated;
an unresolved classification yields `error` set with the identity fields
left null. -/
theorem claim_C8_retrieval_gap :
    (∀ (o : QueryOutcome) (s : AgentState) (id name : String),
        o.exc = none → o.resolvedId = some id → lookupName id = some name →
        (o.descriptionChunks = [] ∨ o.requirementChunks = []) →
        (queryAgentRun o s).error ≠ none ∧
        (queryAgentRun o s).use_case_id = some id ∧
        (queryAgentRun o s).use_case_name = some name) ∧
    (∀ (o : QueryOutcome) (s : AgentState),
        o.exc = none → (∀ id, o.resolvedId = some id → lookupName id = none) →
        (queryAgentRun o s).error ≠ none ∧
        (queryAgentRun o s).use_case_id = none ∧
        (queryAgentRun o s).use_case_name = none) := by
  constructor
  · intro o s id name hexc hres hlook hgap
    by_cases hd : o.descriptionChunks.isEmpty
    · simp [queryAgentRun, hexc, hres, hlook, hd]
    · have hreq : o.requirementChunks = [] := by
        rcases hgap with h | h
        · exact absurd (by simp [h]) hd
        · exact h
      simp [queryAgentRun, hexc, hres, hlook, hd, hreq]
  · intro o s hexc hun
    cases hres : o.resolvedId with
    | none => simp [queryAgentRun, hexc, hres]
    | some id => simp [queryAgentRun, hexc, hres, hun id hres]

/-- Witness for C8: an empty requirement retrieval for `"5.1.1"`. -/
theorem claim_C8_retrieval_gap_witness :
    (queryAgentRun ⟨none, some "5.1.1", ["desc"], [], "s"⟩ (initialState "q" 3)).error ≠ none ∧
    (queryAgentRun ⟨none, some "5.1.1", ["desc"], [], "s"⟩ (initialState "q" 3)).use_case_id =
      some "5.1.1" ∧
    (queryAgentRun ⟨none, some "5.1.1", ["desc"], [], "s"⟩ (initialState "q" 3)).use_case_name =
      some "AI Agents to Enable Smart Life" :=
  claim_C8_retrieval_gap.1 ⟨none, some "5.1.1", ["desc"], [], "s"⟩
    (initialState "q" 3) "5.1.1" "AI Agents to Enable Smart Life"
    rfl rfl (by decide) (Or.inr rfl)

theorem designRun_ok (o : DesignOutcome) (s : AgentState)
    (hid : truthy s.use_case_id = true) (hds : truthy s.description_summary = true)
    (hexc : o.exc = none) :
    designRun o s =
      { s with research_search := some o.researchSummaries,
               system_design := some (designText o), error := none } := by
  simp [designRun, hid, hds, hexc]

theorem feedbackRun_needs_revision (o : FeedbackOutcome) (s : AgentState)
    (hsd : truthy s.system_design = true) (hrl : truthy s.requirement_list = true)
    (hexc : o.exc = none) (hpv : parse_verdict o.evaluation = false)
    (hni : ¬ s.iteration + 1 ≥ s.max_iterations) :
    feedbackRun o s =
      ({ s with feedback := some o.evaluation, is_approved := false,
                iteration := s.iteration + 1, final_response := none,
                error := none }, []) := by
  simp [feedbackRun, hsd, hrl, hexc, hpv, hni]

theorem feedbackRun_finalize (o : FeedbackOutcome) (s : AgentState)
    (hsd : truthy s.system_design = true) (hrl : truthy s.requirement_list = true)
    (hexc : o.exc = none)
    (hor : parse_verdict o.evaluation = true ∨ s.iteration + 1 ≥ s.max_iterations) :
    feedbackRun o s =
      ({ s with feedback := some o.evaluation, is_approved := true,
                iteration := s.iteration + 1,
                final_response := some (finalResponseText s (parse_verdict o.evaluation)
                  o.evaluation o.lessonsText),
                error := none }, extractLessons o.lessonsText) := by
  rcases hor with h | h
  · simp [feedbackRun, hsd, hrl, hexc, h]
  · simp [feedbackRun, hsd, hrl, hexc, decide_eq_true h]

theorem lookupName_truthy (id name : String) (h : lookupName id = some name) :
    truthyStr id = true := by
  rw [lookupName] at h
  cases hf : useCaseCatalog.find? (fun p => p.1 = id) with
  | none => rw [hf] at h; simp at h
  | some p =>
    rw [hf] at h
    have hp : p.1 = id := by
      have := List.find?_some hf
      simpa using this
    have hmem : p ∈ useCaseCatalog := List.mem_of_find?_eq_some hf
    have hall : ∀ q ∈ useCaseCatalog, truthyStr q.1 = true := by decide
    rw [← hp]
    exact hall p hmem

theorem routeAfterFeedbackEnds_nr (s : AgentState)
    (he : s.error = none) (ha : s.is_approved = false) (hf : s.final_response = none) :
    routeAfterFeedbackEnds s = false := by
  simp [routeAfterFeedbackEnds, he, ha, hf, truthy]

theorem loopDF_always_revision
    (d : Nat → DesignOutcome) (f : Nat → FeedbackOutcome)
    (hdx : ∀ j, (d j).exc = none)
    (hdt : ∀ j, truthyStr (designText (d j)) = true)
    (hfx : ∀ j, (f j).exc = none)
    (hfv : ∀ j, parse_verdict ((f j).evaluation) = false) :
    ∀ (n k : Nat) (s : AgentState),
      1 ≤ n →
      truthy s.use_case_id = true →
      truthy s.description_summary = true →
      truthy s.requirement_list = true →
      s.iteration + (n : Int) = s.max_iterations →
      (∀ fuel, fuel < n → loopDF d f fuel k s = none) ∧
      (∀ fuel, n ≤ fuel →
        ∃ r, loopDF d f fuel k s = some r ∧
          r.criticCount = k + n ∧
          r.state.is_approved = true ∧
          r.state.final_response ≠ none ∧
          r.state.iteration = s.max_iterations ∧
          r.state.error = none) := by
  intro n
  induction n with
  | zero => intro k s h1; omega
  | succ m ih =>
    intro k s _ hid hds hrl hit
    have hd1 := designRun_ok (d k) s hid hds (hdx k)
    have hsd1 : truthy (designRun (d k) s).system_design = true := by
      rw [hd1]; exact hdt k
    have hrl1 : truthy (designRun (d k) s).requirement_list = true := by
      rw [hd1]; exact hrl
    have hit1 : (designRun (d k) s).iteration = s.iteration := by rw [hd1]
    have hmx1 : (designRun (d k) s).max_iterations = s.max_iterations := by rw [hd1]
    by_cases hm : m = 0
    · -- final round: iteration + 1 = max_iterations, Critic finalizes
      subst hm
      have hfin : (designRun (d k) s).iteration + 1 ≥
          (designRun (d k) s).max_iterations := by
        rw [hit1, hmx1]; simp at hit; omega
      have hf1 := feedbackRun_finalize (f k) (designRun (d k) s) hsd1 hrl1
        (hfx k) (Or.inr hfin)
      constructor
      · intro fuel hfuel
        interval_cases fuel
        rfl
      · intro fuel hfuel
        obtain ⟨fuel', rfl⟩ : ∃ fuel', fuel = fuel' + 1 := ⟨fuel - 1, by omega⟩
        rw [loopDF, hf1]
        have hroute : routeAfterFeedbackEnds ((feedbackRun (f k) (designRun (d k) s)).1)
            = true := by
          rw [hf1]; simp [routeAfterFeedbackEnds]
        rw [hf1] at hroute
        simp only [hroute, if_true]
        refine ⟨_, rfl, rfl, by simp, by simp, ?_, by simp⟩
        simp [hit1, hmx1]
        simp at hit
        omega
    · -- intermediate round: Critic sends the state back to the Designer
      have hm1 : 1 ≤ m := by omega
      have hni : ¬ (designRun (d k) s).iteration + 1 ≥
          (designRun (d k) s).max_iterations := by
        rw [hit1, hmx1]; simp at hit ⊢; omega
      have hf1 := feedbackRun_needs_revision (f k) (designRun (d k) s) hsd1 hrl1
        (hfx k) (hfv k) hni
      have hroute : routeAfterFeedbackEnds ((feedbackRun (f k) (designRun (d k) s)).1)
          = false := by
        rw [hf1]
        exact routeAfterFeedbackEnds_nr _ rfl rfl rfl
      have ihm := ih (k + 1) ((feedbackRun (f k) (designRun (d k) s)).1) hm1
        (by rw [hf1]; simp; rw [hd1]; exact hid)
        (by rw [hf1]; simp; rw [hd1]; exact hds)
        (by rw [hf1]; simp; rw [hd1]; exact hrl)
        (by rw [hf1]; simp [hit1, hmx1]; simp at hit; omega)
      have hmx2 : ((feedbackRun (f k) (designRun (d k) s)).1).max_iterations
          = s.max_iterations := by
        rw [hf1]; simp [hmx1]
      constructor
      · intro fuel hfuel
        cases fuel with
        | zero => rfl
        | succ fuel' =>
          rw [loopDF, hroute]
          simp only [Bool.false_eq_true, if_false]
          rw [ihm.1 fuel' (by omega)]
      · intro fuel hfuel
        obtain ⟨fuel', rfl⟩ : ∃ fuel', fuel = fuel' + 1 := ⟨fuel - 1, by omega⟩
        obtain ⟨r, hr, hc, ha, hfr, hitr, her⟩ := ihm.2 fuel' (by omega)
        rw [hmx2] at hitr
        refine ⟨⟨r.state, r.criticCount, Node.design :: Node.feedback :: r.trace,
          (feedbackRun (f k) (designRun (d k) s)).2 ++ r.writes⟩, ?_, ?_, ha, hfr,
          hitr, her⟩
        · rw [loopDF, hroute]
          simp only [Bool.false_eq_true, if_false]
          rw [hr]
        · simp [hc]; omega

theorem queryNode_ok (cfg : Int) (q : QueryOutcome) (s : AgentState)
    (id name : String)
    (hexc : q.exc = none) (hres : q.resolvedId = some id)
    (hlook : lookupName id = some name)
    (hdc : q.descriptionChunks.isEmpty = false)
    (hrc : q.requirementChunks.isEmpty = false) :
    queryNode cfg q s =
      { s with use_case_id := some id, use_case_name := some name,
               description_summary := some q.summary,
               requirement_list := some (joinBlankLine q.requirementChunks),
               error := none, max_iterations := cfg } := by
  simp [queryNode, queryAgentRun, hexc, hres, hlook, hdc, hrc]

theorem claim_C2_bounded_termination
    (cfg : Int) (uq : String)
    (q : QueryOutcome) (d : Nat → DesignOutcome) (f : Nat → FeedbackOutcome)
    (id name : String)
    (hcfg : 1 ≤ cfg)
    (hqx : q.exc = none) (hqr : q.resolvedId = some id)
    (hql : lookupName id = some name)
    (hqd : q.descriptionChunks.isEmpty = false)
    (hqc : q.requirementChunks.isEmpty = false)
    (hqs : truthyStr q.summary = true)
    (hqj : truthyStr (joinBlankLine q.requirementChunks) = true)
    (hdx : ∀ j, (d j).exc = none)
    (hdt : ∀ j, truthyStr (designText (d j)) = true)
    (hfx : ∀ j, (f j).exc = none)
    (hfv : ∀ j, parse_verdict ((f j).evaluation) = false) :
    (∀ fuel, fuel < cfg.toNat → runWorkflow cfg q d f fuel uq = none) ∧
    (∀ fuel, cfg.toNat ≤ fuel →
      ∃ r, runWorkflow cfg q d f fuel uq = some r ∧
        r.criticCount = cfg.toNat ∧
        r.state.is_approved = true ∧
        r.state.final_response ≠ none ∧
        r.state.iteration = cfg) := by
  have hq := queryNode_ok cfg q (initialState uq cfg) id name hqx hqr hql hqd hqc
  have hidt : truthyStr id = true := lookupName_truthy id name hql
  have hroute : routeAfterQueryEnds (queryNode cfg q (initialState uq cfg)) = false := by
    rw [hq]
    simp [routeAfterQueryEnds, truthy, initialState, hidt]
  have hloop := loopDF_always_revision d f hdx hdt hfx hfv cfg.toNat 0
    (queryNode cfg q (initialState uq cfg))
    (by omega)
    (by rw [hq]; simpa [truthy] using hidt)
    (by rw [hq]; simpa [truthy] using hqs)
    (by rw [hq]; simpa [truthy] using hqj)
    (by rw [hq]; simp [initialState]; omega)
  have hmx : (queryNode cfg q (initialState uq cfg)).max_iterations = cfg := by
    rw [hq]
  constructor
  · intro fuel hfuel
    rw [runWorkflow, hroute]
    simp only [Bool.false_eq_true, if_false]
    rw [hloop.1 fuel hfuel]
  · intro fuel hfuel
    obtain ⟨r, hr, hc, ha, hfr, hitr, her⟩ := hloop.2 fuel hfuel
    refine ⟨⟨r.state, r.criticCount, Node.query :: r.trace, r.writes⟩, ?_, ?_, ha, hfr, ?_⟩
    · rw [runWorkflow, hroute]
      simp only [Bool.false_eq_true, if_false]
      rw [hr]
    · simpa using hc
    · simpa [hmx] using hitr

theorem designRun_exc (o : DesignOutcome) (s : AgentState) (m : String)
    (hid : truthy s.use_case_id = true) (hds : truthy s.description_summary = true)
    (hexc : o.exc = some m) :
    designRun o s =
      { s with error := some ("Design generation failed: " ++ m),
               system_design := none } := by
  simp [designRun, hid, hds, hexc]

theorem feedbackRun_invalid (o : FeedbackOutcome) (s : AgentState)
    (h : (!truthy s.system_design || !truthy s.requirement_list) = true) :
    feedbackRun o s =
      ({ s with error := some "Feedback agent requires system_design and requirement_list",
                is_approved := false }, []) := by
  simp only [feedbackRun, h, if_true]

theorem feedbackRun_exc (o : FeedbackOutcome) (s : AgentState) (m : String)
    (h : (!truthy s.system_design || !truthy s.requirement_list) = false)
    (hexc : o.exc = some m) :
    feedbackRun o s =
      ({ s with error := some ("Feedback evaluation failed: " ++ m),
                is_approved := false }, []) := by
  simp only [feedbackRun, h, Bool.false_eq_true, if_false, hexc]

theorem queryAgentRun_preserves (o : QueryOutcome) (s : AgentState) :
    (queryAgentRun o s).final_response = s.final_response ∧
    (queryAgentRun o s).iteration = s.iteration ∧
    (queryAgentRun o s).max_iterations = s.max_iterations ∧
    (queryAgentRun o s).is_approved = s.is_approved := by
  unfold queryAgentRun
  repeat' split
  all_goals exact ⟨rfl, rfl, rfl, rfl⟩

theorem designRun_preserves (o : DesignOutcome) (s : AgentState) :
    (designRun o s).final_response = s.final_response ∧
    (designRun o s).iteration = s.iteration ∧
    (designRun o s).max_iterations = s.max_iterations ∧
    (designRun o s).is_approved = s.is_approved := by
  unfold designRun
  repeat' split
  all_goals exact ⟨rfl, rfl, rfl, rfl⟩

theorem invFinal_of_none (p : Phase) (s : AgentState)
    (h : s.final_response = none) : InvFinal (p, s) := by
  cases p <;> simp [InvFinal, h]

theorem phaseAfterFeedback_approved (s : AgentState) (h : s.is_approved = true) :
    phaseAfterFeedback s = Phase.terminated := by
  simp [phaseAfterFeedback, routeAfterFeedbackEnds, h]

theorem invFinal_step (cfg : Int) (c c' : Phase × AgentState)
    (h : WStep cfg c c') (hc : InvFinal c) : InvFinal c' := by
  cases h with
  | query s o =>
    have hp := (queryAgentRun_preserves o s).1
    have hf : (queryNode cfg o s).final_response = none := by
      have he : (queryNode cfg o s).final_response = (queryAgentRun o s).final_response := rfl
      rw [he, hp]
      exact hc
    exact invFinal_of_none _ _ hf
  | design s o =>
    have hp := (designRun_preserves o s).1
    exact invFinal_of_none _ _ (by rw [hp]; exact hc)
  | feedback s o =>
    by_cases hv : (!truthy s.system_design || !truthy s.requirement_list) = true
    · rw [feedbackRun_invalid o s hv]
      exact invFinal_of_none _ _ hc
    · have hv' : (!truthy s.system_design || !truthy s.requirement_list) = false := by
        simpa using hv
      have hsd : truthy s.system_design = true := by
        simp only [Bool.or_eq_false_iff, Bool.not_eq_false'] at hv'
        exact hv'.1
      have hrl : truthy s.requirement_list = true := by
        simp only [Bool.or_eq_false_iff, Bool.not_eq_false'] at hv'
        exact hv'.2
      cases hexc : o.exc with
      | some m =>
        rw [feedbackRun_exc o s m hv' hexc]
        exact invFinal_of_none _ _ hc
      | none =>
        by_cases hp : parse_verdict o.evaluation = true
        · rw [feedbackRun_finalize o s hsd hrl hexc (Or.inl hp),
            phaseAfterFeedback_approved _ rfl]
          exact fun _ => Or.inl rfl
        · by_cases hi : s.iteration + 1 ≥ s.max_iterations
          · rw [feedbackRun_finalize o s hsd hrl hexc (Or.inr hi),
              phaseAfterFeedback_approved _ rfl]
            exact fun _ => Or.inl rfl
          · have hpv : parse_verdict o.evaluation = false := by
              simpa using hp
            rw [feedbackRun_needs_revision o s hsd hrl hexc hpv hi]
            exact invFinal_of_none _ _ rfl

theorem reachable_invFinal (cfg : Int) (uq : String) (c : Phase × AgentState)
    (h : Reachable cfg uq c) : InvFinal c := by
  unfold Reachable at h
  induction h with
  | refl => exact invFinal_of_none _ _ rfl
  | tail hab hbc ih => exact invFinal_step cfg _ _ hbc ih

/-- C5: in every configuration reachable by the workflow, a non-null
`final_response` implies `is_approved = true` or a non-null `error`. -/
theorem claim_C5_terminal_consistency (cfg : Int) (uq : String)
    (p : Phase) (s : AgentState)
    (h : Reachable cfg uq (p, s)) (hf : s.final_response ≠ none) :
    s.is_approved = true ∨ s.error ≠ none := by
  have hinv := reachable_invFinal cfg uq (p, s) h
  cases p with
  | terminated => exact hinv hf
  | classifying => exact absurd hinv hf
  | designing => exact absurd hinv hf
  | critiquing => exact absurd hinv hf

/-- Witness for C2: with `max_iterations = 2` and an always-`NEEDS_REVISION`
Critic, the run ends after exactly 2 Critic invocations, approved, with a
final response. -/
theorem claim_C2_bounded_termination_witness :
    (runWorkflow 2 qW dW fW 1 "query" = none) ∧
    ∃ r, runWorkflow 2 qW dW fW 2 "query" = some r ∧
      r.criticCount = (2 : Int).toNat ∧
      r.state.is_approved = true ∧
      r.state.final_response ≠ none ∧
      r.state.iteration = 2 := by
  have h := claim_C2_bounded_termination 2 "query" qW dW fW "5.1.1"
    "AI Agents to Enable Smart Life" (by decide) rfl rfl (by decide) rfl rfl
    (by decide) (by decide) (fun _ => rfl)
    (fun _ => show truthyStr (designText ⟨none, "DESIGN", [], ""⟩) = true by decide)
    (fun _ => rfl)
    (fun _ => show parse_verdict "NEEDS_REVISION" = false by decide)
  exact ⟨h.1 1 (by decide), h.2 2 (by decide)⟩

/-! ## Error routing (C3) -/

/-- Counterexample to C3: the Designer reports an error (exception `boom`),
yet the Critic node is still invoked on the error-tagged state — the trace of
the run is query, design, feedback, not query, design alone. -/
theorem claim_C3_counterexample :
    (designRun (dErrW 0) (queryNode 3 qW (initialState "query" 3))).error =
      some "Design generation failed: boom" ∧
    (runWorkflow 3 qW dErrW fW 5 "query").map RunResult.trace =
      some [Node.query, Node.design, Node.feedback] := by
  exact ⟨by decide, by decide⟩

theorem truthy_feedback_required :
    truthy (some "Feedback agent requires system_design and requirement_list") = true := by
  decide

/-- C3 as amended: a Classifier error terminates the run with no Designer or
Critic invocation; a Designer-reported error does not terminate immediately —
the unconditional `design → feedback` edge invokes the Critic once on the
error-tagged state, whose input validation replaces the error and returns
without evaluating (iteration unchanged, no Memory writes), after which the
Controller terminates. -/
theorem claim_C3_error_routing :
    (∀ (cfg : Int) (uq : String) (q : QueryOutcome) (d : Nat → DesignOutcome)
        (f : Nat → FeedbackOutcome) (fuel : Nat),
        routeAfterQueryEnds (queryNode cfg q (initialState uq cfg)) = true →
        runWorkflow cfg q d f fuel uq =
          some ⟨queryNode cfg q (initialState uq cfg), 0, [Node.query], []⟩) ∧
    (∀ (cfg : Int) (uq : String) (q : QueryOutcome) (d : Nat → DesignOutcome)
        (f : Nat → FeedbackOutcome) (fuel : Nat) (id name m : String),
        q.exc = none → q.resolvedId = some id → lookupName id = some name →
        q.descriptionChunks.isEmpty = false → q.requirementChunks.isEmpty = false →
        truthyStr q.summary = true →
        (d 0).exc = some m → 1 ≤ fuel →
        ∃ r, runWorkflow cfg q d f fuel uq = some r ∧
          r.trace = [Node.query, Node.design, Node.feedback] ∧
          r.criticCount = 1 ∧
          r.state.error = some "Feedback agent requires system_design and requirement_list" ∧
          r.state.iteration = 0 ∧
          r.writes = []) := by
  constructor
  · intro cfg uq q d f fuel h
    rw [runWorkflow, h]
    simp
  · intro cfg uq q d f fuel id name m hqx hqr hql hqd hqc hqs hdm hfuel
    have hq := queryNode_ok cfg q (initialState uq cfg) id name hqx hqr hql hqd hqc
    have hidt : truthyStr id = true := lookupName_truthy id name hql
    have hroute : routeAfterQueryEnds (queryNode cfg q (initialState uq cfg)) = false := by
      rw [hq]
      simp [routeAfterQueryEnds, truthy, initialState, hidt]
    have hd := designRun_exc (d 0) (queryNode cfg q (initialState uq cfg)) m
      (by rw [hq]; simpa [truthy] using hidt)
      (by rw [hq]; simpa [truthy] using hqs) hdm
    have hvc : (!truthy (designRun (d 0) (queryNode cfg q (initialState uq cfg))).system_design
        || !truthy (designRun (d 0) (queryNode cfg q (initialState uq cfg))).requirement_list)
        = true := by
      rw [hd]
      simp [truthy]
    have hf := feedbackRun_invalid (f 0) (designRun (d 0) (queryNode cfg q (initialState uq cfg))) hvc
    obtain ⟨fuel', rfl⟩ : ∃ fuel', fuel = fuel' + 1 := ⟨fuel - 1, by omega⟩
    rw [runWorkflow, hroute]
    simp only [Bool.false_eq_true, if_false]
    rw [loopDF, hf]
    have hend : routeAfterFeedbackEnds
        ((feedbackRun (f 0) (designRun (d 0) (queryNode cfg q (initialState uq cfg)))).1)
        = true := by
      rw [hf]
      simp only [routeAfterFeedbackEnds]
      simp [truthy_feedback_required]
    rw [hf] at hend
    simp only [hend, if_true]
    refine ⟨_, rfl, rfl, rfl, ?_, ?_, rfl⟩
    · rfl
    · rw [show ({ designRun (d 0) (queryNode cfg q (initialState uq cfg)) with
          error := some "Feedback agent requires system_design and requirement_list",
          is_approved := false } : AgentState).iteration =
        (designRun (d 0) (queryNode cfg q (initialState uq cfg))).iteration from rfl]
      rw [hd, hq]
      rfl

/-- Witness for C3 (amended): concrete run with a Designer exception. -/
theorem claim_C3_error_routing_witness :
    ∃ r, runWorkflow 3 qW dErrW fW 1 "query" = some r ∧
      r.trace = [Node.query, Node.design, Node.feedback] ∧
      r.criticCount = 1 ∧
      r.state.error = some "Feedback agent requires system_design and requirement_list" ∧
      r.state.iteration = 0 ∧
      r.writes = [] :=
  claim_C3_error_routing.2 3 "query" qW dErrW fW 1 "5.1.1"
    "AI Agents to Enable Smart Life" "boom" rfl rfl (by decide) rfl rfl
    (by decide) rfl (by decide)

theorem invIter_any (cfg : Int) (p : Phase) (s : AgentState)
    (hmx : s.max_iterations = cfg) (h0 : 0 ≤ s.iteration)
    (h1 : s.iteration + 1 ≤ cfg) : InvIter cfg (p, s) := by
  cases p <;> exact ⟨hmx, h0, by omega⟩

theorem invIter_step (cfg : Int) (c c' : Phase × AgentState)
    (h : WStep cfg c c') (hc : InvIter cfg c) : InvIter cfg c' := by
  cases h with
  | query s o =>
    obtain ⟨hmx, h0, h1⟩ : s.max_iterations = cfg ∧ 0 ≤ s.iteration ∧
        s.iteration + 1 ≤ cfg := hc
    have hp : (queryNode cfg o s).iteration = s.iteration :=
      (queryAgentRun_preserves o s).2.1
    exact invIter_any cfg _ _ rfl (by rw [hp]; exact h0) (by rw [hp]; exact h1)
  | design s o =>
    obtain ⟨hmx, h0, h1⟩ : s.max_iterations = cfg ∧ 0 ≤ s.iteration ∧
        s.iteration + 1 ≤ cfg := hc
    have hp := (designRun_preserves o s).2.1
    have hm := (designRun_preserves o s).2.2.1
    exact invIter_any cfg _ _ (by rw [hm]; exact hmx) (by rw [hp]; exact h0)
      (by rw [hp]; exact h1)
  | feedback s o =>
    obtain ⟨hmx, h0, h1⟩ : s.max_iterations = cfg ∧ 0 ≤ s.iteration ∧
        s.iteration + 1 ≤ cfg := hc
    by_cases hv : (!truthy s.system_design || !truthy s.requirement_list) = true
    · have hfe : (feedbackRun o s).1 =
          { s with error := some "Feedback agent requires system_design and requirement_list",
                   is_approved := false } := by
        rw [feedbackRun_invalid o s hv]
      rw [hfe]
      exact invIter_any cfg _ _ hmx h0 h1
    · have hv' : (!truthy s.system_design || !truthy s.requirement_list) = false := by
        simpa using hv
      have hsd : truthy s.system_design = true := by
        simp only [Bool.or_eq_false_iff, Bool.not_eq_false'] at hv'
        exact hv'.1
      have hrl : truthy s.requirement_list = true := by
        simp only [Bool.or_eq_false_iff, Bool.not_eq_false'] at hv'
        exact hv'.2
      cases hexc : o.exc with
      | some m =>
        have hfe : (feedbackRun o s).1 =
            { s with error := some ("Feedback evaluation failed: " ++ m),
                     is_approved := false } := by
          rw [feedbackRun_exc o s m hv' hexc]
        rw [hfe]
        exact invIter_any cfg _ _ hmx h0 h1
      | none =>
        by_cases hp : parse_verdict o.evaluation = true
        · have hfe := feedbackRun_finalize o s hsd hrl hexc (Or.inl hp)
          rw [hfe, phaseAfterFeedback_approved _ rfl]
          exact ⟨hmx, (by omega : (0 : Int) ≤ s.iteration + 1), h1⟩
        · by_cases hi : s.iteration + 1 ≥ s.max_iterations
          · have hfe := feedbackRun_finalize o s hsd hrl hexc (Or.inr hi)
            rw [hfe, phaseAfterFeedback_approved _ rfl]
            exact ⟨hmx, (by omega : (0 : Int) ≤ s.iteration + 1), h1⟩
          · have hpv : parse_verdict o.evaluation = false := by
              simpa using hp
            have hfe := feedbackRun_needs_revision o s hsd hrl hexc hpv hi
            rw [hmx] at hi
            rw [hfe]
            exact invIter_any cfg _ _ hmx
              (by omega : (0 : Int) ≤ s.iteration + 1)
              (by omega : s.iteration + 1 + 1 ≤ cfg)

theorem reachable_invIter (cfg : Int) (uq : String) (hcfg : 1 ≤ cfg)
    (c : Phase × AgentState) (h : Reachable cfg uq c) : InvIter cfg c := by
  unfold Reachable at h
  induction h with
  | refl =>
    exact invIter_any cfg _ _ rfl
      (by omega : (0 : Int) ≤ 0) (by omega : (0 : Int) + 1 ≤ cfg)
  | tail hab hbc ih => exact invIter_step cfg _ _ hbc ih

/-- Counterexample to C4: a Critic invocation that ends in an error (here an
evaluation exception) does not increment `iteration`; and with
`max_iterations = 0` the workflow reaches a terminal state whose iteration
exceeds `max_iterations`, so the invariant needs `max_iterations ≥ 1`. -/
theorem claim_C4_counterexample :
    ((feedbackRun fExcC4 stFinalize).1.error ≠ none ∧
     (feedbackRun fExcC4 stFinalize).1.iteration = stFinalize.iteration) ∧
    (Reachable 0 "q" (Phase.terminated, sBadC4) ∧
     sBadC4.iteration = 1 ∧ sBadC4.max_iterations = 0) := by
  refine ⟨⟨by decide, by decide⟩, ?_, by decide, by decide⟩
  have h0 : Relation.ReflTransGen (WStep 0)
      (Phase.classifying, initialState "q" 0)
      (Phase.classifying, initialState "q" 0) := Relation.ReflTransGen.refl
  have h1 := Relation.ReflTransGen.tail h0 (WStep.query (initialState "q" 0) qW)
  have e1 : phaseAfterQuery (queryNode 0 qW (initialState "q" 0)) = Phase.designing := by
    decide
  rw [e1] at h1
  have h2 := Relation.ReflTransGen.tail h1
    (WStep.design (queryNode 0 qW (initialState "q" 0)) (dW 0))
  have h3 := Relation.ReflTransGen.tail h2
    (WStep.feedback (designRun (dW 0) (queryNode 0 qW (initialState "q" 0))) (fW 0))
  have h3' : Relation.ReflTransGen (WStep 0)
      (Phase.classifying, initialState "q" 0)
      (phaseAfterFeedback sBadC4, sBadC4) := h3
  have e3 : phaseAfterFeedback sBadC4 = Phase.terminated := by decide
  rw [e3] at h3'
  exact h3'

/-- C4 as amended: a Critic invocation that passes input validation and whose
evaluation call succeeds increments `iteration` by exactly 1; an invocation
ending in an error (validation failure or exception) leaves `iteration`
unchanged; and for `max_iterations ≥ 1` every reachable state satisfies
`0 ≤ iteration ≤ max_iterations`. -/
theorem claim_C4_iteration_counter :
    (∀ (o : FeedbackOutcome) (s : AgentState),
        truthy s.system_design = true → truthy s.requirement_list = true →
        o.exc = none →
        (feedbackRun o s).1.iteration = s.iteration + 1) ∧
    (∀ (o : FeedbackOutcome) (s : AgentState),
        (!truthy s.system_design || !truthy s.requirement_list) = true ∨ o.exc ≠ none →
        (feedbackRun o s).1.iteration = s.iteration) ∧
    (∀ (cfg : Int) (uq : String), 1 ≤ cfg →
      ∀ (p : Phase) (s : AgentState), Reachable cfg uq (p, s) →
        0 ≤ s.iteration ∧ s.iteration ≤ s.max_iterations) := by
  refine ⟨?_, ?_, ?_⟩
  · intro o s hsd hrl hexc
    by_cases hp : parse_verdict o.evaluation = true
    · rw [feedbackRun_finalize o s hsd hrl hexc (Or.inl hp)]
    · by_cases hi : s.iteration + 1 ≥ s.max_iterations
      · rw [feedbackRun_finalize o s hsd hrl hexc (Or.inr hi)]
      · rw [feedbackRun_needs_revision o s hsd hrl hexc (by simpa using hp) hi]
  · intro o s h
    by_cases hv : (!truthy s.system_design || !truthy s.requirement_list) = true
    · rw [feedbackRun_invalid o s hv]
    · have hv' : (!truthy s.system_design || !truthy s.requirement_list) = false := by
        simpa using hv
      rcases h with h | h
      · exact absurd h hv
      · cases hexc : o.exc with
        | none => exact absurd hexc h
        | some m => rw [feedbackRun_exc o s m hv' hexc]
  · intro cfg uq hcfg p s h
    have hinv := reachable_invIter cfg uq hcfg (p, s) h
    cases p with
    | terminated =>
      obtain ⟨hmx, h0, h1⟩ : s.max_iterations = cfg ∧ 0 ≤ s.iteration ∧
          s.iteration ≤ cfg := hinv
      exact ⟨h0, by omega⟩
    | classifying =>
      obtain ⟨hmx, h0, h1⟩ : s.max_iterations = cfg ∧ 0 ≤ s.iteration ∧
          s.iteration + 1 ≤ cfg := hinv
      exact ⟨h0, by omega⟩
    | designing =>
      obtain ⟨hmx, h0, h1⟩ : s.max_iterations = cfg ∧ 0 ≤ s.iteration ∧
          s.iteration + 1 ≤ cfg := hinv
      exact ⟨h0, by omega⟩
    | critiquing =>
      obtain ⟨hmx, h0, h1⟩ : s.max_iterations = cfg ∧ 0 ≤ s.iteration ∧
          s.iteration + 1 ≤ cfg := hinv
      exact ⟨h0, by omega⟩

/-- Witness for C4 (amended): concrete successful, failing and reachable
instantiations. -/
theorem claim_C4_iteration_counter_witness :
    (feedbackRun ⟨none, "NEEDS_REVISION", "L"⟩ stFinalize).1.iteration =
      stFinalize.iteration + 1 ∧
    (feedbackRun fExcC4 (initialState "q" 3)).1.iteration =
      (initialState "q" 3).iteration ∧
    (0 ≤ (initialState "q" 1).iteration ∧
     (initialState "q" 1).iteration ≤ (initialState "q" 1).max_iterations) :=
  ⟨claim_C4_iteration_counter.1 ⟨none, "NEEDS_REVISION", "L"⟩ stFinalize
      (by decide) (by decide) rfl,
   claim_C4_iteration_counter.2.1 fExcC4 (initialState "q" 3) (Or.inl (by decide)),
   claim_C4_iteration_counter.2.2 1 "q" (by omega) Phase.classifying
      (initialState "q" 1) Relation.ReflTransGen.refl⟩

/-- Witness for C5: a concrete reachable terminal state with a non-null
`final_response`. -/
theorem claim_C5_terminal_consistency_witness :
    sTermC5.is_approved = true ∨ sTermC5.error ≠ none := by
  have h0 : Relation.ReflTransGen (WStep 1)
      (Phase.classifying, initialState "q" 1)
      (Phase.classifying, initialState "q" 1) := Relation.ReflTransGen.refl
  have h1 := Relation.ReflTransGen.tail h0 (WStep.query (initialState "q" 1) qW)
  have e1 : phaseAfterQuery (queryNode 1 qW (initialState "q" 1)) = Phase.designing := by
    decide
  rw [e1] at h1
  have h2 := Relation.ReflTransGen.tail h1
    (WStep.design (queryNode 1 qW (initialState "q" 1)) (dW 0))
  have h3 := Relation.ReflTransGen.tail h2
    (WStep.feedback (designRun (dW 0) (queryNode 1 qW (initialState "q" 1))) (fW 0))
  have h3' : Relation.ReflTransGen (WStep 1)
      (Phase.classifying, initialState "q" 1)
      (phaseAfterFeedback sTermC5, sTermC5) := h3
  have e3 : phaseAfterFeedback sTermC5 = Phase.terminated := by decide
  rw [e3] at h3'
  exact claim_C5_terminal_consistency 1 "q" Phase.terminated sTermC5 h3' (by decide)

theorem foldl_bestStep_le (l : List (String × Rat)) (b : Option String) (v : Rat)
    (h : ∀ p ∈ l, p.2 ≤ v) :
    l.foldl bestStep (b, v) = (b, v) := by
  induction l generalizing b v with
  | nil => rfl
  | cons q t ih =>
    have hq : ¬ q.2 > v := not_lt.mpr (h q (List.mem_cons_self q t))
    rw [List.foldl_cons]
    rw [show bestStep (b, v) q = (b, v) by simp [bestStep, hq]]
    exact ih b v (fun p hp => h p (List.mem_cons_of_mem q hp))

theorem foldl_bestStep_gt (l : List (String × Rat)) (b : Option String) (v : Rat)
    (h : ∃ p ∈ l, v < p.2) :
    ∃ k q l₁ l₂, l.foldl bestStep (b, v) = (some k, q) ∧
      l = l₁ ++ (k, q) :: l₂ ∧
      (∀ p ∈ l₁, p.2 < q) ∧
      (∀ p ∈ l₂, p.2 ≤ q) ∧
      v < q := by
  induction l generalizing b v with
  | nil => simp at h
  | cons hd t ih =>
    rw [List.foldl_cons]
    by_cases hq : v < hd.2
    · rw [show bestStep (b, v) hd = (some hd.1, hd.2) by simp [bestStep, hq]]
      by_cases ht : ∃ p ∈ t, hd.2 < p.2
      · obtain ⟨k, q, l₁, l₂, hfold, hdec, h₁, h₂, hlt⟩ := ih (some hd.1) hd.2 ht
        refine ⟨k, q, hd :: l₁, l₂, hfold, by rw [List.cons_append, hdec], ?_, h₂,
          lt_trans hq hlt⟩
        intro p hp
        rcases List.mem_cons.mp hp with rfl | hp
        · exact hlt
        · exact h₁ p hp
      · push_neg at ht
        rw [foldl_bestStep_le t (some hd.1) hd.2 ht]
        exact ⟨hd.1, hd.2, [], t, rfl, by simp, by simp, ht, hq⟩
    · rw [show bestStep (b, v) hd = (b, v) by simp [bestStep, hq]]
      have ht : ∃ p ∈ t, v < p.2 := by
        obtain ⟨p, hp, hvp⟩ := h
        rcases List.mem_cons.mp hp with rfl | hp
        · exact absurd hvp hq
        · exact ⟨p, hp, hvp⟩
      obtain ⟨k, q, l₁, l₂, hfold, hdec, h₁, h₂, hlt⟩ := ih b v ht
      refine ⟨k, q, hd :: l₁, l₂, hfold, by rw [List.cons_append, hdec], ?_, h₂, hlt⟩
      intro p hp
      rcases List.mem_cons.mp hp with rfl | hp
      · exact lt_of_le_of_lt (not_lt.mp hq) hlt
      · exact h₁ p hp

set_option maxRecDepth 4000 in
/-- Counterexample to C9: when no similarity strictly exceeds the initial
best score `-1.0`, the resolver returns `None` and the Classifier's
"Could not identify a valid use case" validation branch fires, with the
identity fields left null — the branch is reachable without any exception. -/
theorem claim_C9_counterexample :
    identifyBest scoresAllNeg = none ∧
    (classifierRun scoresAllNeg ["d"] ["r"] "s" (initialState "q" 3)).error ≠ none ∧
    (classifierRun scoresAllNeg ["d"] ["r"] "s" (initialState "q" 3)).use_case_id = none := by
  refine ⟨by decide, by decide, by decide⟩

/-- C9 as amended: whenever some candidate's similarity strictly exceeds the
initial best score `-1.0`, the resolver returns the first key attaining the
maximum similarity — every candidate before it scores strictly below it and
every candidate after it scores at most it; if all keys are catalog keys the
Classifier then resolves that id (the validation branch does not fire).
When no similarity exceeds `-1.0` the resolver returns `None` and the
validation branch is reachable. -/
theorem claim_C9_resolver (scores : List (String × Rat))
    (hpos : ∃ p ∈ scores, (-1 : Rat) < p.2) :
    ∃ k q l₁ l₂, identifyBest scores = some k ∧
      scores = l₁ ++ (k, q) :: l₂ ∧
      (∀ p ∈ l₁, p.2 < q) ∧
      (∀ p ∈ l₂, p.2 ≤ q) ∧
      (∀ p ∈ scores, p.2 ≤ q) ∧
      ((∀ p ∈ scores, (lookupName p.1).isSome = true) →
        ∀ (desc req : List String) (summary : String) (s : AgentState),
          (classifierRun scores desc req summary s).use_case_id = some k) := by
  obtain ⟨k, q, l₁, l₂, hfold, hdec, h₁, h₂, hlt⟩ :=
    foldl_bestStep_gt scores none (-1) hpos
  have hid : identifyBest scores = some k := by
    rw [identifyBest, hfold]
  have hmem : (k, q) ∈ scores := by
    rw [hdec]
    exact List.mem_append_right l₁ (List.mem_cons_self _ _)
  have hmax : ∀ p ∈ scores, p.2 ≤ q := by
    intro p hp
    rw [hdec] at hp
    rcases List.mem_append.mp hp with hp | hp
    · exact le_of_lt (h₁ p hp)
    · rcases List.mem_cons.mp hp with rfl | hp
      · exact le_refl _
      · exact h₂ p hp
  refine ⟨k, q, l₁, l₂, hid, hdec, h₁, h₂, hmax, ?_⟩
  intro hkeys desc req summary s
  obtain ⟨name, hname⟩ := Option.isSome_iff_exists.mp (hkeys (k, q) hmem)
  by_cases hd : desc.isEmpty <;> by_cases hr : req.isEmpty <;>
    simp [classifierRun, queryAgentRun, hid, hname, hd, hr]

set_option maxRecDepth 4000 in
/-- Witness for C9 (amended): with a tied maximum the Classifier resolves the
first key attaining it, `"5.2.1"`, not the later `"5.3.5"`. -/
theorem claim_C9_resolver_witness :
    (classifierRun scoresW ["d"] ["r"] "s" (initialState "q" 3)).use_case_id =
      some "5.2.1" := by
  obtain ⟨k, q, l₁, l₂, hid, hdec, h₁, h₂, hmax, happ⟩ :=
    claim_C9_resolver scoresW (by decide)
  have hk : k = "5.2.1" := by
    have hc : identifyBest scoresW = some "5.2.1" := by decide
    rw [hc] at hid
    exact (Option.some.inj hid).symm
  subst hk
  exact happ (by decide) ["d"] ["r"] "s" (initialState "q" 3)

